import Mathlib

/-!
Verification of the proposal-generation / block-tree core of the
aptos-core consensus crate, of the node-checker configuration loader,
and of the forge k8s cluster helper.

The block tree and proposal generator are modelled from the spec
(their implementation files are not part of the sources here; only the
test file `consensus/src/liveness/proposal_generator_test.rs` is).
The configuration loader (`ecosystem/node-checker/src/configuration/common.rs`)
and the cluster helper (`testsuite/forge/src/backend/k8s/cluster_helper.rs`)
are embedded from their sources.
-/

namespace AptosCore

/-! ## Data model: quorum certificates and blocks -/

/-- Modelled from the spec: a Quorum Certificate references a certified
block by id and round (signature evidence is external and elided). -/
structure QuorumCert where
  certifiedId : Nat
  certifiedRound : Nat
deriving DecidableEq, Repr

/-- Modelled from the spec: a Block record with identity, round, parent
reference, embedded QC (certifying the parent) and a timestamp.
Payload and author are elided from stored tree blocks (they do not
affect tree decisions). -/
structure Block where
  id : Nat
  round : Nat
  parentId : Nat
  quorumCert : QuorumCert
  timestamp : Nat
deriving DecidableEq, Repr

/-- The genesis quorum certificate: certifies the genesis block (id 0, round 0). -/
def certificate_for_genesis : QuorumCert := ⟨0, 0⟩

/-- The genesis block: id 0, round 0, its own parent, timestamp 0. -/
def genesisBlock : Block := ⟨0, 0, 0, certificate_for_genesis, 0⟩

/-- The QC that `insert_qc_for_block` records for a block: it certifies
exactly that block's id and round. -/
def qcForBlock (b : Block) : QuorumCert := ⟨b.id, b.round⟩

/-- Modelled from the spec: strict preference between certified blocks.
A block with a higher certified round wins; ties (possible only under
Byzantine forks) are broken deterministically by the lower block id. -/
def betterCert (a b : Block) : Bool :=
  b.round < a.round || (a.round == b.round && a.id < b.id)

/-! ## Block tree -/

/-- Modelled from the spec: the Block Tree owns all blocks from the
committed root forward, plus the highest certified block and the QC
that certifies it; `nextId` generates fresh (content-derived in the
real system) block identities. -/
structure BlockTree where
  root : Block
  blocks : List Block
  highestCertified : Block
  highestQC : QuorumCert
  nextId : Nat
deriving DecidableEq, Repr

/-- The genesis-only tree built by build_empty_tree: the root is genesis,
genesis is the highest certified block, certified by the genesis QC. -/
def emptyTree : BlockTree :=
  ⟨genesisBlock, [genesisBlock], genesisBlock, certificate_for_genesis, 1⟩

/-- ordered_root: the committed root of the tree. -/
def BlockTree.ordered_root (t : BlockTree) : Block := t.root

/-- highest_certified_block: the block with the greatest certified round
known to the tree. -/
def BlockTree.highest_certified_block (t : BlockTree) : Block := t.highestCertified

/-- Whether the tree holds a block with the given id. -/
def BlockTree.containsId (t : BlockTree) (i : Nat) : Bool :=
  t.blocks.any (fun b => b.id == i)

/-- Errors produced by this core. -/
inductive ConsensusError where
  | OldRound
  | DuplicateRound
  | UnknownParent
  | InvalidBlockRound
deriving DecidableEq, Repr

/-- Modelled from the spec: insert_qc_for_block records that a block has
been certified and updates the highest certified block when the new
certification beats the current one (higher round, or equal round with
lower id). Idempotent: re-inserting the same QC is a no-op. -/
def insert_qc_for_block (t : BlockTree) (b : Block) : BlockTree :=
  if betterCert b t.highestCertified then
    { t with highestCertified := b, highestQC := qcForBlock b }
  else t

/-- Modelled from the spec: insert_block_with_qc constructs and inserts a
new block extending parent, embedding qc_for_parent. Fails with
UnknownParent if the parent is not present in the tree, and fails if
the round does not exceed the parent's round. -/
def insert_block_with_qc (t : BlockTree) (qc : QuorumCert) (parent : Block)
    (round : Nat) : Except ConsensusError (Block × BlockTree) :=
  if ¬ t.containsId parent.id then .error .UnknownParent
  else if round ≤ parent.round then .error .InvalidBlockRound
  else
    let nb : Block := ⟨t.nextId, round, parent.id, qc, parent.timestamp + 1⟩
    .ok (nb, { t with blocks := nb :: t.blocks, nextId := t.nextId + 1 })

/-! ## Proposal generator -/

/-- The unsigned block body assembled by generate_proposal. -/
structure BlockData where
  parentId : Nat
  round : Nat
  quorumCert : QuorumCert
  payload : List Nat
  timestamp : Nat
  author : Nat
deriving DecidableEq, Repr

/-- Modelled from the spec: the proposal generator holds the author
identity and the last round for which this replica generated a
proposal (a monotonic counter). -/
structure ProposalGenerator where
  author : Nat
  lastRoundGenerated : Nat
deriving DecidableEq, Repr

/-- A fresh proposal generator: no round proposed yet. -/
def ProposalGenerator.new (author : Nat) : ProposalGenerator := ⟨author, 0⟩

/-- Modelled from the spec: generate_proposal for a requested round.
Gate 1 (round gate): fail with OldRound if the round does not exceed the
certified round of the current highest-certified block. Gate 2
(duplicate gate): fail with DuplicateRound if the round does not exceed
the last round this replica generated a proposal for. Otherwise the
highest certified block becomes the parent, its QC the embedded
quorum_cert; the timestamp is the current time, nudged forward if the
clock has not passed the parent's timestamp; on success the last
generated round is updated to the requested round. The payload is the
response of the external payload provider, passed in as an argument. -/
def generate_proposal (g : ProposalGenerator) (t : BlockTree) (round : Nat)
    (payload : List Nat) (now : Nat) :
    Except ConsensusError BlockData × ProposalGenerator :=
  if round ≤ t.highestCertified.round then (.error .OldRound, g)
  else if round ≤ g.lastRoundGenerated then (.error .DuplicateRound, g)
  else
    let parent := t.highestCertified
    let bd : BlockData :=
      ⟨parent.id, round, t.highestQC, payload,
        max now (parent.timestamp + 1), g.author⟩
    (.ok bd, { g with lastRoundGenerated := round })

/-! ## Tree mutations as operations (for reachability statements) -/

/-- A mutation of the block tree: a QC insertion or a block insertion. -/
inductive TreeOp where
  | insertQc (b : Block)
  | insertBlock (qc : QuorumCert) (parent : Block) (round : Nat)
deriving Repr

/-- Apply one tree operation; a failed block insertion leaves the tree
unchanged. -/
def applyOp (t : BlockTree) (op : TreeOp) : BlockTree :=
  match op with
  | .insertQc b => insert_qc_for_block t b
  | .insertBlock qc p r =>
    match insert_block_with_qc t qc p r with
    | .ok (_, t') => t'
    | .error _ => t

/-- Apply a sequence of tree operations. -/
def applyOps (t : BlockTree) (ops : List TreeOp) : BlockTree :=
  ops.foldl applyOp t

/-! ## Tree invariants and helper lemmas -/

/-- Well-formedness: the stored highest QC certifies exactly the stored
highest certified block. -/
def BlockTree.WF (t : BlockTree) : Prop :=
  t.highestQC = qcForBlock t.highestCertified

lemma emptyTree_WF : BlockTree.WF emptyTree := rfl

lemma insert_qc_for_block_WF (t : BlockTree) (b : Block) (h : t.WF) :
    (insert_qc_for_block t b).WF := by
  unfold insert_qc_for_block
  split
  · rfl
  · exact h

lemma insert_block_with_qc_WF (t : BlockTree) (qc : QuorumCert) (p : Block)
    (r : Nat) (t' : BlockTree) (nb : Block) (h : t.WF)
    (hok : insert_block_with_qc t qc p r = .ok (nb, t')) : t'.WF := by
  unfold insert_block_with_qc at hok
  split at hok
  · exact absurd hok (by simp)
  · split at hok
    · exact absurd hok (by simp)
    · simp only [Except.ok.injEq, Prod.mk.injEq] at hok
      obtain ⟨-, ht⟩ := hok
      subst ht
      exact h

lemma applyOp_WF (t : BlockTree) (op : TreeOp) (h : t.WF) : (applyOp t op).WF := by
  cases op with
  | insertQc b => exact insert_qc_for_block_WF t b h
  | insertBlock qc p r =>
    cases hres : insert_block_with_qc t qc p r with
    | ok pr =>
      obtain ⟨nb, t'⟩ := pr
      have harw : applyOp t (.insertBlock qc p r) = t' := by
        simp [applyOp, hres]
      rw [harw]
      exact insert_block_with_qc_WF t qc p r t' nb h hres
    | error e =>
      have harw : applyOp t (.insertBlock qc p r) = t := by
        simp [applyOp, hres]
      rw [harw]
      exact h

lemma applyOps_WF (t : BlockTree) (ops : List TreeOp) (h : t.WF) :
    (applyOps t ops).WF := by
  induction ops generalizing t with
  | nil => exact h
  | cons op ops ih => exact ih (applyOp t op) (applyOp_WF t op h)

lemma betterCert_round_le (a b : Block) (h : betterCert b a = true) :
    a.round ≤ b.round := by
  simp only [betterCert, Bool.or_eq_true, Bool.and_eq_true, decide_eq_true_eq,
    beq_iff_eq] at h
  omega

/-- The certified round of the highest certified block never decreases
under a QC insertion. -/
lemma insert_qc_certRound_mono (t : BlockTree) (b : Block) :
    t.highestCertified.round ≤ (insert_qc_for_block t b).highestCertified.round := by
  unfold insert_qc_for_block
  split
  · next h => exact betterCert_round_le _ _ h
  · exact Nat.le_refl _

/-- Block insertion does not change the highest certified block. -/
lemma insert_block_highestCertified (t : BlockTree) (qc : QuorumCert)
    (p : Block) (r : Nat) (nb : Block) (t' : BlockTree)
    (hok : insert_block_with_qc t qc p r = .ok (nb, t')) :
    t'.highestCertified = t.highestCertified := by
  unfold insert_block_with_qc at hok
  split at hok
  · exact absurd hok (by simp)
  · split at hok
    · exact absurd hok (by simp)
    · simp only [Except.ok.injEq, Prod.mk.injEq] at hok
      obtain ⟨-, ht⟩ := hok
      subst ht
      rfl

lemma applyOp_certRound_mono (t : BlockTree) (op : TreeOp) :
    t.highestCertified.round ≤ (applyOp t op).highestCertified.round := by
  cases op with
  | insertQc b => exact insert_qc_certRound_mono t b
  | insertBlock qc p r =>
    cases hres : insert_block_with_qc t qc p r with
    | ok pr =>
      obtain ⟨nb, t'⟩ := pr
      have harw : applyOp t (.insertBlock qc p r) = t' := by
        simp [applyOp, hres]
      rw [harw, insert_block_highestCertified t qc p r nb t' hres]
    | error e =>
      have harw : applyOp t (.insertBlock qc p r) = t := by
        simp [applyOp, hres]
      rw [harw]

lemma applyOps_certRound_mono (t : BlockTree) (ops : List TreeOp) :
    t.highestCertified.round ≤ (applyOps t ops).highestCertified.round := by
  induction ops generalizing t with
  | nil => exact Nat.le_refl _
  | cons op ops ih =>
    exact Nat.le_trans (applyOp_certRound_mono t op) (ih (applyOp t op))

/-! ## Order independence of QC insertion -/

/-- The total preference preorder underlying betterCert: a is at most as
preferred as b (lower round, or equal round and higher-or-equal id). -/
def keyLe (a b : Block) : Prop :=
  a.round < b.round ∨ (a.round = b.round ∧ b.id ≤ a.id)

lemma keyLe_refl (a : Block) : keyLe a a := Or.inr ⟨rfl, Nat.le_refl _⟩

lemma keyLe_trans (a b c : Block) (h₁ : keyLe a b) (h₂ : keyLe b c) :
    keyLe a c := by
  rcases h₁ with h₁ | ⟨h₁, h₁'⟩ <;> rcases h₂ with h₂ | ⟨h₂, h₂'⟩ <;>
    [exact Or.inl (Nat.lt_trans h₁ h₂); exact Or.inl (h₂ ▸ h₁);
     exact Or.inl (h₁ ▸ h₂); exact Or.inr ⟨h₁.trans h₂, Nat.le_trans h₂' h₁'⟩]

lemma keyLe_antisymm (a b : Block) (h₁ : keyLe a b) (h₂ : keyLe b a) :
    a.round = b.round ∧ a.id = b.id := by
  rcases h₁ with h₁ | ⟨h₁, h₁'⟩ <;> rcases h₂ with h₂ | ⟨h₂, h₂'⟩ <;> omega

lemma betterCert_keyLe (a b : Block) (h : betterCert b a = true) : keyLe a b := by
  simp only [betterCert, Bool.or_eq_true, Bool.and_eq_true, decide_eq_true_eq,
    beq_iff_eq] at h
  rcases h with h | ⟨h, h'⟩
  · exact Or.inl h
  · exact Or.inr ⟨h.symm, Nat.le_of_lt h'⟩

lemma not_betterCert_keyLe (a b : Block) (h : betterCert b a = false) :
    keyLe b a := by
  simp only [betterCert, Bool.or_eq_false_iff, Bool.and_eq_false_iff,
    decide_eq_false_iff_not, beq_eq_false_iff_ne, ne_eq] at h
  obtain ⟨h₁, h₂⟩ := h
  rcases h₂ with h₂ | h₂
  · exact Or.inl (by omega)
  · rcases Nat.lt_or_ge b.round a.round with hlt | hge
    · exact Or.inl hlt
    · exact Or.inr ⟨Nat.le_antisymm (Nat.le_of_not_lt h₁) hge |>.symm ▸ rfl, by omega⟩

/-- The pure preference update performed by insert_qc_for_block on the
highest certified block. -/
def stepHighest (cur b : Block) : Block :=
  if betterCert b cur then b else cur

lemma insert_qc_highest_eq (t : BlockTree) (b : Block) :
    (insert_qc_for_block t b).highestCertified = stepHighest t.highestCertified b := by
  unfold insert_qc_for_block stepHighest
  split <;> rfl

/-- Folding QC insertions over a list of blocks. -/
def insertQCs (t : BlockTree) (l : List Block) : BlockTree :=
  l.foldl insert_qc_for_block t

lemma insertQCs_highest (t : BlockTree) (l : List Block) :
    (insertQCs t l).highestCertified =
      l.foldl stepHighest t.highestCertified := by
  induction l generalizing t with
  | nil => rfl
  | cons b l ih =>
    show (insertQCs (insert_qc_for_block t b) l).highestCertified = _
    rw [ih (insert_qc_for_block t b), insert_qc_highest_eq]
    rfl

lemma stepHighest_mem (c b : Block) : stepHighest c b = c ∨ stepHighest c b = b := by
  unfold stepHighest
  split
  · exact Or.inr rfl
  · exact Or.inl rfl

lemma keyLe_stepHighest_left (c b : Block) : keyLe c (stepHighest c b) := by
  unfold stepHighest
  split
  · next h => exact betterCert_keyLe c b h
  · exact keyLe_refl c

lemma keyLe_stepHighest_right (c b : Block) : keyLe b (stepHighest c b) := by
  unfold stepHighest
  split
  · exact keyLe_refl b
  · next h => exact not_betterCert_keyLe c b (Bool.of_not_eq_true h)

lemma foldl_stepHighest_mem (l : List Block) (c : Block) :
    l.foldl stepHighest c ∈ c :: l := by
  induction l generalizing c with
  | nil => exact List.mem_singleton.mpr rfl
  | cons b l ih =>
    rw [List.foldl_cons]
    have h := ih (stepHighest c b)
    rcases List.mem_cons.mp h with h | h
    · rw [h]
      rcases stepHighest_mem c b with hc | hb
      · rw [hc]
        exact List.mem_cons_self _ _
      · rw [hb]
        exact List.mem_cons.mpr (Or.inr (List.mem_cons_self _ _))
    · exact List.mem_cons.mpr (Or.inr (List.mem_cons.mpr (Or.inr h)))

lemma foldl_stepHighest_ge (l : List Block) (c : Block) :
    ∀ x ∈ c :: l, keyLe x (l.foldl stepHighest c) := by
  induction l generalizing c with
  | nil =>
    intro x hx
    rw [List.mem_singleton.mp hx]
    exact keyLe_refl c
  | cons b l ih =>
    intro x hx
    rw [List.foldl_cons]
    have hhead : keyLe (stepHighest c b) (l.foldl stepHighest (stepHighest c b)) :=
      ih (stepHighest c b) _ (List.mem_cons_self _ _)
    rcases List.mem_cons.mp hx with hx | hx
    · subst hx
      exact keyLe_trans _ _ _ (keyLe_stepHighest_left x b) hhead
    · rcases List.mem_cons.mp hx with hx | hx
      · subst hx
        exact keyLe_trans _ _ _ (keyLe_stepHighest_right c x) hhead
      · exact ih (stepHighest c b) x (List.mem_cons.mpr (Or.inr hx))

/-! ## Concrete example material (test scenarios) -/

/-- The first sibling block of the fork scenario: round 1 child of genesis. -/
def forkA1 : Block := ⟨1, 1, 0, certificate_for_genesis, 1⟩

/-- The second sibling block of the fork scenario: round 2 child of genesis. -/
def forkB1 : Block := ⟨2, 2, 0, certificate_for_genesis, 1⟩

/-- Tree after inserting forkA1 under genesis. -/
def forkTree1 : BlockTree :=
  applyOp emptyTree (.insertBlock certificate_for_genesis genesisBlock 1)

/-- Tree after additionally inserting forkB1 under genesis. -/
def forkTree2 : BlockTree :=
  applyOp forkTree1 (.insertBlock certificate_for_genesis genesisBlock 2)

/-- The generator of the fork scenario. -/
def forkGen0 : ProposalGenerator := ProposalGenerator.new 7

/-- Proposal for round 10 on the fork tree with no certifications. -/
def forkRes10 : Except ConsensusError BlockData × ProposalGenerator :=
  generate_proposal forkGen0 forkTree2 10 [] 0

/-- Tree after certifying forkA1. -/
def forkTree3 : BlockTree := insert_qc_for_block forkTree2 forkA1

/-- Proposal for round 11 after forkA1 is certified. -/
def forkRes11 : Except ConsensusError BlockData × ProposalGenerator :=
  generate_proposal forkRes10.2 forkTree3 11 [] 0

/-- Tree after additionally certifying forkB1. -/
def forkTree4 : BlockTree := insert_qc_for_block forkTree3 forkB1

/-- Proposal for round 12 after forkB1 is certified. -/
def forkRes12 : Except ConsensusError BlockData × ProposalGenerator :=
  generate_proposal forkRes11.2 forkTree4 12 [] 0

/-- Tree with a round-1 block inserted and certified. -/
def a1Tree : BlockTree :=
  applyOps emptyTree
    [.insertBlock certificate_for_genesis genesisBlock 1, .insertQc forkA1]

/-- A round-5 child of genesis. -/
def cexBlock5 : Block := ⟨1, 5, 0, certificate_for_genesis, 1⟩

/-- Tree with a round-5 block inserted and certified. -/
def cexTree5 : BlockTree :=
  applyOps emptyTree
    [.insertBlock certificate_for_genesis genesisBlock 5, .insertQc cexBlock5]

/-- Result of the first round-1 proposal on the genesis-only tree. -/
def emptyRes1 : Except ConsensusError BlockData × ProposalGenerator :=
  generate_proposal (ProposalGenerator.new 0) emptyTree 1 [] 0

/-! ## Claims -/

/-- C1: for every tree state and requested round, if the round is at most
the certified round of the tree's current highest-certified block, then
generate_proposal fails with OldRound; and once a round-1 block is
certified, every later call for round 1 still fails with OldRound after
any further sequence of tree operations. -/
theorem generate_proposal_old_round :
    (∀ (g : ProposalGenerator) (t : BlockTree) (round : Nat)
        (payload : List Nat) (now : Nat),
      round ≤ t.highest_certified_block.round →
      generate_proposal g t round payload now = (.error .OldRound, g)) ∧
    (∀ (t : BlockTree) (ops : List TreeOp) (g : ProposalGenerator)
        (payload : List Nat) (now : Nat),
      1 ≤ t.highest_certified_block.round →
      generate_proposal g (applyOps t ops) 1 payload now
        = (.error .OldRound, g)) := by
  constructor
  · intro g t round payload now h
    unfold generate_proposal
    rw [if_pos (show round ≤ t.highestCertified.round from h)]
  · intro t ops g payload now h
    have hm : 1 ≤ (applyOps t ops).highestCertified.round :=
      Nat.le_trans h (applyOps_certRound_mono t ops)
    unfold generate_proposal
    rw [if_pos hm]

/-- Witness for the OldRound gate: with forkA1 (round 1) certified, a
round-1 proposal fails with OldRound even after a further tree change. -/
theorem generate_proposal_old_round_witness :
    generate_proposal (ProposalGenerator.new 3)
        (applyOps a1Tree [.insertBlock certificate_for_genesis genesisBlock 7])
        1 [] 5
      = (.error .OldRound, ProposalGenerator.new 3) :=
  generate_proposal_old_round.2 a1Tree
    [.insertBlock certificate_for_genesis genesisBlock 7]
    (ProposalGenerator.new 3) [] 5 (by decide)

/-- C2 counterexample: generate_proposal(5) succeeds on the genesis-only
tree, but after a round-5 block is certified in the tree, the second
call for round 5 fails with OldRound rather than DuplicateRound. -/
theorem generate_proposal_duplicate_round_cex :
    generate_proposal (ProposalGenerator.new 0) emptyTree 5 [] 0
      = (.ok ⟨0, 5, certificate_for_genesis, [], 1, 0⟩, ⟨0, 5⟩) ∧
    (generate_proposal
        (generate_proposal (ProposalGenerator.new 0) emptyTree 5 [] 0).2
        cexTree5 5 [] 0).1
      = .error .OldRound ∧
    ConsensusError.OldRound ≠ ConsensusError.DuplicateRound :=
  ⟨rfl, rfl, by decide⟩

/-- C2 (amended): an immediately repeated generate_proposal call for the
same round on an unchanged tree fails with DuplicateRound; in general a
call for a round at most the last generated round always fails, and
fails with DuplicateRound whenever the round still exceeds the
certified round (otherwise the round gate fires first with OldRound). -/
theorem generate_proposal_duplicate_round :
    (∀ (g : ProposalGenerator) (t : BlockTree) (round : Nat)
        (payload : List Nat) (now : Nat) (payload' : List Nat) (now' : Nat)
        (bd : BlockData) (g' : ProposalGenerator),
      generate_proposal g t round payload now = (.ok bd, g') →
      (generate_proposal g' t round payload' now').1
        = .error .DuplicateRound) ∧
    (∀ (g : ProposalGenerator) (t : BlockTree) (round : Nat)
        (payload : List Nat) (now : Nat),
      round ≤ g.lastRoundGenerated →
      ((generate_proposal g t round payload now).1 = .error .OldRound ∨
       (generate_proposal g t round payload now).1 = .error .DuplicateRound) ∧
      (t.highest_certified_block.round < round →
        (generate_proposal g t round payload now).1
          = .error .DuplicateRound)) := by
  constructor
  · intro g t round payload now payload' now' bd g' h
    simp only [generate_proposal] at h
    split_ifs at h with h₁ h₂
    · simp at h
    · simp at h
    · simp only [Prod.mk.injEq, Except.ok.injEq] at h
      obtain ⟨-, hg'⟩ := h
      subst hg'
      simp only [generate_proposal]
      rw [if_neg h₁, if_pos (Nat.le_refl round)]
  · intro g t round payload now h
    unfold BlockTree.highest_certified_block
    simp only [generate_proposal]
    split_ifs with h₁
    · exact ⟨Or.inl rfl, fun hc => absurd h₁ (by omega)⟩
    · exact ⟨Or.inr rfl, fun _ => rfl⟩

/-- Witness for the duplicate gate: a second round-1 proposal on the
unchanged genesis-only tree fails with DuplicateRound. -/
theorem generate_proposal_duplicate_round_witness :
    (generate_proposal (⟨0, 1⟩ : ProposalGenerator) emptyTree 1 [] 0).1
      = .error .DuplicateRound :=
  generate_proposal_duplicate_round.1 (ProposalGenerator.new 0) emptyTree 1
    [] 0 [] 0 ⟨0, 1, certificate_for_genesis, [], 1, 0⟩ ⟨0, 1⟩ rfl

/-- C3: every successful generate_proposal call returns a BlockData whose
parent id is the id of the highest certified block at the time of the
call and whose embedded QC certifies that same parent. -/
theorem generate_proposal_parent_link (g : ProposalGenerator) (t : BlockTree)
    (round : Nat) (payload : List Nat) (now : Nat) (bd : BlockData)
    (g' : ProposalGenerator) (hwf : t.WF)
    (h : generate_proposal g t round payload now = (.ok bd, g')) :
    bd.parentId = t.highest_certified_block.id ∧
    bd.quorumCert.certifiedId = bd.parentId := by
  simp only [generate_proposal] at h
  split_ifs at h
  · simp at h
  · simp at h
  · simp only [Prod.mk.injEq, Except.ok.injEq] at h
    obtain ⟨hbd, -⟩ := h
    subst hbd
    refine ⟨rfl, ?_⟩
    show t.highestQC.certifiedId = t.highestCertified.id
    rw [hwf]
    rfl

/-- Witness for the parent link: the round-1 proposal on the genesis-only
tree has genesis as parent and a QC certifying genesis. -/
theorem generate_proposal_parent_link_witness :
    (⟨0, 1, certificate_for_genesis, [], 1, 0⟩ : BlockData).parentId
        = emptyTree.highest_certified_block.id ∧
    (⟨0, 1, certificate_for_genesis, [], 1, 0⟩ : BlockData).quorumCert.certifiedId
        = (⟨0, 1, certificate_for_genesis, [], 1, 0⟩ : BlockData).parentId :=
  generate_proposal_parent_link (ProposalGenerator.new 0) emptyTree 1 [] 0
    ⟨0, 1, certificate_for_genesis, [], 1, 0⟩ ⟨0, 1⟩ rfl rfl

/-- C4: the highest certified block after inserting a collection of QCs
via insert_qc_for_block is a pure function of the set of certified
blocks: any two insertion sequences with the same underlying set
(hence any reordering, and any duplicated insertions) yield the same
highest certified block, under the tree invariant that distinct blocks
have distinct ids. -/
theorem highest_certified_block_order_invariant (t : BlockTree)
    (l₁ l₂ : List Block)
    (hmem : ∀ b : Block,
      b ∈ t.highestCertified :: l₁ ↔ b ∈ t.highestCertified :: l₂)
    (hids : ∀ a ∈ t.highestCertified :: l₁, ∀ b ∈ t.highestCertified :: l₁,
      a.id = b.id → a = b) :
    (insertQCs t l₁).highest_certified_block
      = (insertQCs t l₂).highest_certified_block := by
  unfold BlockTree.highest_certified_block
  rw [insertQCs_highest t l₁, insertQCs_highest t l₂]
  have m₁ : l₁.foldl stepHighest t.highestCertified ∈ t.highestCertified :: l₁ :=
    foldl_stepHighest_mem l₁ t.highestCertified
  have m₂ : l₂.foldl stepHighest t.highestCertified ∈ t.highestCertified :: l₂ :=
    foldl_stepHighest_mem l₂ t.highestCertified
  have m₁' := (hmem _).mp m₁
  have m₂' := (hmem _).mpr m₂
  have h₁ : keyLe (l₂.foldl stepHighest t.highestCertified)
      (l₁.foldl stepHighest t.highestCertified) :=
    foldl_stepHighest_ge l₁ t.highestCertified _ m₂'
  have h₂ : keyLe (l₁.foldl stepHighest t.highestCertified)
      (l₂.foldl stepHighest t.highestCertified) :=
    foldl_stepHighest_ge l₂ t.highestCertified _ m₁'
  exact hids _ m₁ _ m₂' (keyLe_antisymm _ _ h₂ h₁).2

/-- Witness for order invariance: certifying forkA1 then forkB1, and
certifying forkB1 then forkA1 twice, give the same highest certified
block. -/
theorem highest_certified_block_order_invariant_witness :
    (insertQCs emptyTree [forkA1, forkB1]).highest_certified_block
      = (insertQCs emptyTree [forkB1, forkA1, forkA1]).highest_certified_block :=
  highest_certified_block_order_invariant emptyTree [forkA1, forkB1]
    [forkB1, forkA1, forkA1]
    (by
      intro b
      simp only [List.mem_cons, List.not_mem_nil, or_false]
      tauto)
    (by decide)

/-- C5: fork-then-certify scenario. Starting from the genesis-only tree,
inserting the uncertified siblings forkA1 (round 1) and forkB1
(round 2) leaves genesis as the proposal parent for round 10; after
certifying forkA1, the round-11 proposal has parent forkA1; after
additionally certifying forkB1, the round-12 proposal has parent
forkB1. -/
theorem scenario_fork_then_certify :
    insert_block_with_qc emptyTree certificate_for_genesis genesisBlock 1
      = .ok (forkA1, forkTree1) ∧
    insert_block_with_qc forkTree1 certificate_for_genesis genesisBlock 2
      = .ok (forkB1, forkTree2) ∧
    (forkRes10.1.map fun bd => (bd.parentId, bd.round, bd.quorumCert.certifiedId))
      = .ok (genesisBlock.id, 10, genesisBlock.id) ∧
    (forkRes11.1.map fun bd => (bd.parentId, bd.round, bd.quorumCert.certifiedId))
      = .ok (forkA1.id, 11, forkA1.id) ∧
    (forkRes12.1.map fun bd => (bd.parentId, bd.round, bd.quorumCert.certifiedId))
      = .ok (forkB1.id, 12, forkB1.id) :=
  ⟨rfl, rfl, rfl, rfl, rfl⟩

/-- C6: on the genesis-only tree, generate_proposal for round 1 succeeds
with the ordered root (genesis) as parent, round 1, and an embedded QC
certifying genesis; an immediately following round-1 call on the same
generator fails. -/
theorem scenario_empty_tree :
    (emptyRes1.1.map fun bd => (bd.parentId, bd.round, bd.quorumCert.certifiedId))
      = .ok (emptyTree.ordered_root.id, 1, emptyTree.ordered_root.id) ∧
    (generate_proposal emptyRes1.2 emptyTree 1 [] 0).1
      = .error .DuplicateRound :=
  ⟨rfl, rfl⟩

/-! ## Sequences of proposal calls -/

/-- One generate_proposal request: the round, the tree snapshot at call
time, the provider payload and the clock reading. -/
structure GenRequest where
  round : Nat
  tree : BlockTree
  payload : List Nat
  now : Nat

/-- Run a sequence of generate_proposal calls, threading the generator. -/
def runCalls (g : ProposalGenerator) : List GenRequest → ProposalGenerator
  | [] => g
  | r :: rs => runCalls (generate_proposal g r.tree r.round r.payload r.now).2 rs

lemma generate_proposal_step_mono (g : ProposalGenerator) (t : BlockTree)
    (round : Nat) (payload : List Nat) (now : Nat) :
    g.lastRoundGenerated
      ≤ (generate_proposal g t round payload now).2.lastRoundGenerated := by
  simp only [generate_proposal]
  split_ifs with h₁ h₂
  · exact Nat.le_refl _
  · exact Nat.le_refl _
  · exact Nat.le_of_lt (Nat.lt_of_not_le h₂)

/-- C7: the last generated round is non-decreasing across every sequence
of generate_proposal calls; it is unchanged by every failed call and
strictly increased, to the requested round, by every successful call. -/
theorem last_round_generated_monotone :
    (∀ (g : ProposalGenerator) (t : BlockTree) (round : Nat)
        (payload : List Nat) (now : Nat),
      g.lastRoundGenerated
          ≤ (generate_proposal g t round payload now).2.lastRoundGenerated ∧
      (∀ e, (generate_proposal g t round payload now).1 = .error e →
        (generate_proposal g t round payload now).2 = g) ∧
      (∀ bd, (generate_proposal g t round payload now).1 = .ok bd →
        g.lastRoundGenerated < round ∧
        (generate_proposal g t round payload now).2.lastRoundGenerated
          = round)) ∧
    (∀ (g : ProposalGenerator) (rs : List GenRequest),
      g.lastRoundGenerated ≤ (runCalls g rs).lastRoundGenerated) := by
  constructor
  · intro g t round payload now
    refine ⟨generate_proposal_step_mono g t round payload now, ?_, ?_⟩ <;>
      simp only [generate_proposal] <;> split_ifs with h₁ h₂
    · exact fun e _ => rfl
    · exact fun e _ => rfl
    · intro e he
      simp at he
    · intro bd hbd
      simp at hbd
    · intro bd hbd
      simp at hbd
    · exact fun bd _ => ⟨Nat.lt_of_not_le h₂, rfl⟩
  · intro g rs
    induction rs generalizing g with
    | nil => exact Nat.le_refl _
    | cons r rs ih =>
      exact Nat.le_trans
        (generate_proposal_step_mono g r.tree r.round r.payload r.now)
        (ih (generate_proposal g r.tree r.round r.payload r.now).2)

/-- Witness for monotonicity: the successful round-1 call on a fresh
generator strictly raises the last generated round from 0 to 1. -/
theorem last_round_generated_monotone_witness :
    (ProposalGenerator.new 0).lastRoundGenerated < 1 ∧
    (generate_proposal (ProposalGenerator.new 0) emptyTree 1 [] 0).2.lastRoundGenerated
      = 1 :=
  (last_round_generated_monotone.1 (ProposalGenerator.new 0) emptyTree 1
    [] 0).2.2 ⟨0, 1, certificate_for_genesis, [], 1, 0⟩ rfl

/-- C8: insert_block_with_qc fails with UnknownParent whenever the parent
is absent from the tree, fails whenever the round does not strictly
exceed the parent's round, and inserts the new block exactly when both
preconditions hold. -/
theorem insert_block_with_qc_preconditions (t : BlockTree) (qc : QuorumCert)
    (parent : Block) (round : Nat) :
    (t.containsId parent.id = false →
      insert_block_with_qc t qc parent round = .error .UnknownParent) ∧
    (round ≤ parent.round →
      ∃ e, insert_block_with_qc t qc parent round = .error e) ∧
    (t.containsId parent.id = true → parent.round < round →
      ∃ nb t', insert_block_with_qc t qc parent round = .ok (nb, t') ∧
        nb.round = round ∧ nb.parentId = parent.id ∧ nb.quorumCert = qc ∧
        t'.blocks = nb :: t.blocks) := by
  refine ⟨?_, ?_, ?_⟩
  · intro h
    simp only [insert_block_with_qc]
    rw [if_pos]
    simp [h]
  · intro h
    simp only [insert_block_with_qc]
    split_ifs with h₁
    · exact ⟨.InvalidBlockRound, rfl⟩
    · exact ⟨.UnknownParent, rfl⟩
  · intro h₁ h₂
    simp only [insert_block_with_qc]
    rw [if_neg (by simp [h₁]), if_neg (Nat.not_le.mpr h₂)]
    exact ⟨_, _, rfl, rfl, rfl, rfl, rfl⟩

/-- Witness for the insertion preconditions: inserting a round-1 child of
genesis into the genesis-only tree succeeds and prepends the new
block. -/
theorem insert_block_with_qc_preconditions_witness :
    ∃ nb t',
      insert_block_with_qc emptyTree certificate_for_genesis genesisBlock 1
        = .ok (nb, t') ∧
      nb.round = 1 ∧ nb.parentId = genesisBlock.id ∧
      nb.quorumCert = certificate_for_genesis ∧
      t'.blocks = nb :: emptyTree.blocks :=
  (insert_block_with_qc_preconditions emptyTree certificate_for_genesis
    genesisBlock 1).2.2 (by decide) (by decide)

/-! ## Node-checker configuration loading
(embedded from ecosystem/node-checker/src/configuration/common.rs) -/

/-- The target configuration type; its contents are opaque to the
dispatch logic under verification. -/
structure NodeConfiguration where
  data : Nat
deriving DecidableEq, Repr

/-- A path extension as the OS reports it: a UTF-8 string or an
arbitrary non-UTF-8 byte sequence (whose contents are irrelevant). -/
inductive PathExt where
  | utf8 (s : String)
  | nonUtf8
deriving DecidableEq, Repr

/-- A file path, abstracted to the only attribute the dispatch inspects:
its extension, if any. -/
structure ConfPath where
  extension : Option PathExt
deriving DecidableEq, Repr

/-- Errors of the configuration loader. -/
inductive ConfigError where
  | noExtension
  | invalidExtension
  | badExtension (ext : String)
  | parseFailure (msg : String)
deriving DecidableEq, Repr

/-- FileType from common.rs: a YAML or JSON configuration file. -/
inductive FileType where
  | yaml (path : ConfPath)
  | json (path : ConfPath)
deriving DecidableEq, Repr

/-- FileType::try_from: require an extension, require it to be valid
UTF-8, and accept exactly yaml, yml (YAML) and json (JSON). -/
def FileType.tryFrom (path : ConfPath) : Except ConfigError FileType :=
  match path.extension with
  | none => .error .noExtension
  | some .nonUtf8 => .error .invalidExtension
  | some (.utf8 s) =>
    if s = "yaml" ∨ s = "yml" then .ok (.yaml path)
    else if s = "json" then .ok (.json path)
    else .error (.badExtension s)

/-- TryInto for FileType: open and parse the file as YAML or JSON; the
file system and the two parsers are external effects, passed in as
functions from the path to a result. -/
def FileType.tryInto
    (parseYamlFile parseJsonFile : ConfPath → Except ConfigError NodeConfiguration) :
    FileType → Except ConfigError NodeConfiguration
  | .yaml path => parseYamlFile path
  | .json path => parseJsonFile path

/-- read_configuration_from_file: classify the path by extension, then
parse accordingly. -/
def read_configuration_from_file
    (parseYamlFile parseJsonFile : ConfPath → Except ConfigError NodeConfiguration)
    (path : ConfPath) : Except ConfigError NodeConfiguration :=
  (FileType.tryFrom path).bind (FileType.tryInto parseYamlFile parseJsonFile)

/-- C9: read_configuration_from_file rejects, for every choice of the
parsing effects (hence without consulting them), any path with no
extension, a non-UTF-8 extension, or an extension other than yaml, yml
or json; paths with a yaml or yml extension are handed exactly to the
YAML parser and paths with a json extension exactly to the JSON
parser. -/
theorem read_configuration_extension_dispatch
    (parseYamlFile parseJsonFile : ConfPath → Except ConfigError NodeConfiguration)
    (path : ConfPath) :
    (path.extension = none →
      read_configuration_from_file parseYamlFile parseJsonFile path
        = .error .noExtension) ∧
    (path.extension = some .nonUtf8 →
      read_configuration_from_file parseYamlFile parseJsonFile path
        = .error .invalidExtension) ∧
    (∀ s, path.extension = some (.utf8 s) →
      s ≠ "yaml" → s ≠ "yml" → s ≠ "json" →
      read_configuration_from_file parseYamlFile parseJsonFile path
        = .error (.badExtension s)) ∧
    (∀ s, path.extension = some (.utf8 s) → (s = "yaml" ∨ s = "yml") →
      read_configuration_from_file parseYamlFile parseJsonFile path
        = parseYamlFile path) ∧
    (path.extension = some (.utf8 "json") →
      read_configuration_from_file parseYamlFile parseJsonFile path
        = parseJsonFile path) := by
  refine ⟨?_, ?_, ?_, ?_, ?_⟩
  · intro h
    simp [read_configuration_from_file, FileType.tryFrom, h, Except.bind]
  · intro h
    simp [read_configuration_from_file, FileType.tryFrom, h, Except.bind]
  · intro s h h₁ h₂ h₃
    simp only [read_configuration_from_file, FileType.tryFrom, h]
    rw [if_neg (by tauto), if_neg h₃]
    rfl
  · intro s h hs
    simp only [read_configuration_from_file, FileType.tryFrom, h]
    rw [if_pos hs]
    rfl
  · intro h
    simp only [read_configuration_from_file, FileType.tryFrom, h]
    rw [if_neg (by simp), if_pos trivial]
    rfl

/-- Witness for the extension dispatch: a txt path is rejected without
consulting the parsers, and a yml path goes to the YAML parser. -/
theorem read_configuration_extension_dispatch_witness :
    read_configuration_from_file (fun _ => .ok ⟨1⟩) (fun _ => .ok ⟨2⟩)
        ⟨some (.utf8 "txt")⟩
      = .error (.badExtension "txt") ∧
    read_configuration_from_file (fun _ => .ok ⟨1⟩) (fun _ => .ok ⟨2⟩)
        ⟨some (.utf8 "yml")⟩
      = .ok ⟨1⟩ :=
  ⟨(read_configuration_extension_dispatch _ _ _).2.2.1 "txt" rfl
      (by decide) (by decide) (by decide),
    (read_configuration_extension_dispatch _ _ _).2.2.2.1 "yml" rfl
      (Or.inr rfl)⟩

/-! ## Forge k8s cluster helper
(embedded from testsuite/forge/src/backend/k8s/cluster_helper.rs) -/

/-- MAX_NUM_VALIDATORS from cluster_helper.rs. -/
def MAX_NUM_VALIDATORS : Nat := 30

/-- The helm release name of validator i: val0, val1, ... -/
def valRelease (i : Nat) : String := "val" ++ toString i

/-- The helm releases uninstall_from_k8s_cluster operates on: it iterates
over 0..MAX_NUM_VALIDATORS and removes the release of each index. -/
def uninstall_from_k8s_cluster_releases : List String :=
  (List.range MAX_NUM_VALIDATORS).map valRelease

/-- A cluster mutation or query performed by clean_k8s_cluster, in
program order. -/
inductive ClusterAction where
  | getNewEra
  | getHelmStatus (release : String)
  | writeHelmValues (file : String)
  | helmReleasePatch (release : String)
  | upgradeValidator (release : String)
  | upgradeTestnet
  | waitGenesisJob
  | healthcheck
deriving DecidableEq, Repr

/-- clean_k8s_cluster, abstracted to its control flow: the initial
assertion requires base_num_validators to be at most
MAX_NUM_VALIDATORS and panics (modelled as an error carrying the
assertion text) before any other step; otherwise the function performs
its sequence of cluster queries and mutations, returned here as a
trace. -/
def clean_k8s_cluster (base_num_validators : Nat) :
    Except String (List ClusterAction) :=
  if base_num_validators ≤ MAX_NUM_VALIDATORS then
    .ok ([.getNewEra]
      ++ ((List.range base_num_validators).map fun i =>
            [ClusterAction.getHelmStatus (valRelease i),
             .writeHelmValues (valRelease i ++ "_status.json"),
             .helmReleasePatch (valRelease i)]).flatten
      ++ ((List.range base_num_validators).map fun i =>
            ClusterAction.upgradeValidator (valRelease i))
      ++ [.getHelmStatus "aptos", .helmReleasePatch "aptos",
          .writeHelmValues "aptos_status.json", .upgradeTestnet,
          .waitGenesisJob, .healthcheck])
  else .error "assertion failed: base_num_validators <= MAX_NUM_VALIDATORS"

/-- C10: clean_k8s_cluster panics on its initial assertion, before any
cluster action, for every validator count above MAX_NUM_VALIDATORS
(30); and uninstall_from_k8s_cluster operates on exactly the releases
val0 through val29. -/
theorem clean_k8s_cluster_validator_bound :
    (∀ n, MAX_NUM_VALIDATORS < n →
      clean_k8s_cluster n
        = .error "assertion failed: base_num_validators <= MAX_NUM_VALIDATORS") ∧
    uninstall_from_k8s_cluster_releases
      = ["val0", "val1", "val2", "val3", "val4", "val5", "val6", "val7",
         "val8", "val9", "val10", "val11", "val12", "val13", "val14",
         "val15", "val16", "val17", "val18", "val19", "val20", "val21",
         "val22", "val23", "val24", "val25", "val26", "val27", "val28",
         "val29"] := by
  constructor
  · intro n hn
    unfold clean_k8s_cluster
    rw [if_neg (Nat.not_le.mpr hn)]
  · rfl

/-- Witness for the validator bound: 31 validators trip the assertion. -/
theorem clean_k8s_cluster_validator_bound_witness :
    clean_k8s_cluster 31
      = .error "assertion failed: base_num_validators <= MAX_NUM_VALIDATORS" :=
  clean_k8s_cluster_validator_bound.1 31 (by decide)

end AptosCore
